import Mathlib

set_option maxRecDepth 16384

/-!
Shallow embedding of the Cortex Link A8R-M ESP32 smart relay board firmware
(EthernetControl, ModbusComm, RelayOutputs, DigitalInputs, DHTSensors and the
cross-cutting poll-interval discipline), together with theorems settling the
frozen specification claims against it.

Machine integers are embedded as `Nat` with explicit reductions modulo `2 ^ 32`
(for `unsigned long` / `uint32_t` millisecond arithmetic) or modulo `256`
(for `uint8_t` storage).  Hardware effects (I/O-expander pin writes) are made
explicit as lists of emitted write events, and fallible external readings
(DHT `NaN`, Modbus responses) are `Option` values.
-/

/-- Unsigned 32-bit subtraction `a - b` as computed on `unsigned long`
operands (the millisecond arithmetic of the firmware): the difference
modulo `2 ^ 32`. -/
def usub32 (a b : Nat) : Nat :=
  (a % 2 ^ 32 + (2 ^ 32 - b % 2 ^ 32)) % 2 ^ 32

/-- Helper: for in-range, monotone time stamps the unsigned 32-bit difference
is the ordinary truncated difference. -/
theorem usub32_of_le (a b : Nat) (hba : b ≤ a) (ha : a < 2 ^ 32) :
    usub32 a b = a - b := by
  unfold usub32
  have hb : b < 2 ^ 32 := lt_of_le_of_lt hba ha
  have h1 : a % 2 ^ 32 = a := Nat.mod_eq_of_lt ha
  have h2 : b % 2 ^ 32 = b := Nat.mod_eq_of_lt hb
  rw [h1, h2]
  omega

/-! ## EthernetControl (src/EthernetControl.h / .cpp) -/

/-- Network states of the Ethernet link (enum `NetworkState`). -/
inductive NetworkState where
  | NETWORK_DISCONNECTED
  | NETWORK_CONNECTING
  | NETWORK_CONNECTED
  | NETWORK_ERROR
deriving DecidableEq, Repr

/-- Physical link status as reported by `Ethernet.linkStatus()`
(Arduino `EthernetLinkStatus`). -/
inductive EthLinkStatus where
  | Unknown
  | LinkON
  | LinkOFF
deriving DecidableEq, Repr

/-- IPv4 address quad (Arduino `IPAddress`); each octet is a `uint8_t`. -/
structure IPv4 where
  o0 : Nat
  o1 : Nat
  o2 : Nat
  o3 : Nat
deriving DecidableEq, Repr

/-- One `digitalWrite(pin, level)` emitted on the MCP23017 I/O expander. -/
structure PinWrite where
  pin : Nat
  level : Bool
deriving DecidableEq, Repr

/-- Pin GPA5 of the expander drives the W5500 reset line.  Modelled from the
spec: the numeric value of `MCP_ETH_RESET_PIN` lives in `Config.h`, which is
not among the sources; the header comment fixes the line as GPA5 (= pin 5). -/
def MCP_ETH_RESET_PIN : Nat := 5

/-- Connection check interval of `EthernetControl::task` (header:
`CHECK_INTERVAL = 5000` ms). -/
def CHECK_INTERVAL : Nat := 5000

/-- State of an `EthernetControl` object.  `mcpBound` models
`mcpDevice != nullptr`. -/
structure EthernetControl where
  state : NetworkState
  dhcpMode : Bool
  macAddress : List Nat
  lastCheckTime : Nat
  mcpInitialized : Bool
  mcpBound : Bool
deriving DecidableEq, Repr

/-- Constructor `EthernetControl::EthernetControl()`. -/
def EthernetControl.mk0 : EthernetControl :=
  { state := .NETWORK_DISCONNECTED
    dhcpMode := true
    macAddress := [0, 0, 0, 0, 0, 0]
    lastCheckTime := 0
    mcpInitialized := false
    mcpBound := false }

/-- Method `EthernetControl::initMCP`: binds the expander, configures the reset
pin and drives it HIGH.  Returns the result, the emitted pin writes and the
updated object. -/
def EthernetControl.initMCP (s : EthernetControl) :
    Bool × List PinWrite × EthernetControl :=
  (true, [⟨MCP_ETH_RESET_PIN, true⟩],
    { s with mcpInitialized := true, mcpBound := true })

/-- Method `EthernetControl::reset`: fails fast when no expander is bound;
otherwise pulses the reset line LOW then HIGH.  Returns the result, the
emitted pin writes and the (unmodified) object. -/
def EthernetControl.reset (s : EthernetControl) :
    Bool × List PinWrite × EthernetControl :=
  if !s.mcpInitialized || !s.mcpBound then
    (false, [], s)
  else
    (true, [⟨MCP_ETH_RESET_PIN, false⟩, ⟨MCP_ETH_RESET_PIN, true⟩], s)

/-- Method `EthernetControl::begin`.  The environment supplies the outcome of
`Ethernet.begin(mac)` (`dhcpResult`, where `0` means DHCP failure) and the
address reported by `Ethernet.localIP()` afterwards.  Static-IP configuration
assumes success (`result = 1` in the source). -/
def EthernetControl.begin (s : EthernetControl) (mac : List Nat)
    (useStaticIP : Bool) (dhcpResult : Nat) (localIP : IPv4) :
    Bool × EthernetControl :=
  let s1 : EthernetControl := { s with macAddress := mac, dhcpMode := !useStaticIP }
  match s1.reset with
  | (false, _, s2) => (false, { s2 with state := .NETWORK_ERROR })
  | (true, _, s2) =>
    let s3 : EthernetControl := { s2 with state := .NETWORK_CONNECTING }
    let result : Nat := if useStaticIP then 1 else dhcpResult
    if result = 0 then
      (false, { s3 with state := .NETWORK_ERROR })
    else if localIP = ⟨0, 0, 0, 0⟩ then
      (false, { s3 with state := .NETWORK_ERROR })
    else
      (true, { s3 with state := .NETWORK_CONNECTED })

/-- Method `EthernetControl::task`: at most once per `CHECK_INTERVAL` it polls
the link status and moves the state to `NETWORK_DISCONNECTED` on `LinkOFF`
and to `NETWORK_CONNECTED` on `LinkON`. -/
def EthernetControl.task (s : EthernetControl) (now : Nat)
    (link : EthLinkStatus) : EthernetControl :=
  if CHECK_INTERVAL ≤ usub32 now s.lastCheckTime then
    let s1 : EthernetControl := { s with lastCheckTime := now }
    match link with
    | .LinkOFF =>
      if s1.state ≠ .NETWORK_DISCONNECTED then
        { s1 with state := .NETWORK_DISCONNECTED }
      else s1
    | .LinkON =>
      if s1.state ≠ .NETWORK_CONNECTED then
        { s1 with state := .NETWORK_CONNECTED }
      else s1
    | .Unknown => s1
  else s

/-- Claim C1, counterexample: from the reachable `NETWORK_ERROR` state produced
by a DHCP-failing `begin()` (after `initMCP`), a single `task()` call at a
check-interval boundary with the physical link up moves the state to
`NETWORK_CONNECTED` — `task()` does leave the Error state without any further
`begin()` call, contradicting the claim. -/
theorem C1_task_error_counterexample :
    ((EthernetControl.mk0.initMCP.2.2.begin [1, 2, 3, 4, 5, 6] false 0
        ⟨10, 0, 0, 1⟩).1 = false) ∧
    ((EthernetControl.mk0.initMCP.2.2.begin [1, 2, 3, 4, 5, 6] false 0
        ⟨10, 0, 0, 1⟩).2.state = NetworkState.NETWORK_ERROR) ∧
    (((EthernetControl.mk0.initMCP.2.2.begin [1, 2, 3, 4, 5, 6] false 0
        ⟨10, 0, 0, 1⟩).2.task 5000 EthLinkStatus.LinkON).state =
      NetworkState.NETWORK_CONNECTED) := by
  decide

/-- Claim C1, amended: from `NETWORK_ERROR`, `task()` keeps the state at
`NETWORK_ERROR` only while the 5000 ms check interval has not elapsed (or the
link status is indeterminate); once a check fires, a `LinkON` poll moves the
state to `NETWORK_CONNECTED` and a `LinkOFF` poll to `NETWORK_DISCONNECTED`,
without any explicit `begin()` call. -/
theorem C1_task_error_escape (s : EthernetControl) (now : Nat)
    (link : EthLinkStatus) (h : s.state = NetworkState.NETWORK_ERROR) :
    (s.task now link).state =
      (if CHECK_INTERVAL ≤ usub32 now s.lastCheckTime then
        match link with
        | .LinkON => NetworkState.NETWORK_CONNECTED
        | .LinkOFF => NetworkState.NETWORK_DISCONNECTED
        | .Unknown => NetworkState.NETWORK_ERROR
      else NetworkState.NETWORK_ERROR) := by
  unfold EthernetControl.task
  split
  · cases link <;> simp [h]
  · simpa using h

/-- Witness for `C1_task_error_escape` at a concrete Error state: an elapsed
check with the link up yields `NETWORK_CONNECTED`. -/
theorem C1_task_error_escape_witness :
    ((({ EthernetControl.mk0 with state := .NETWORK_ERROR }).task 6000
        EthLinkStatus.LinkON).state = NetworkState.NETWORK_CONNECTED) := by
  have h := C1_task_error_escape
    { EthernetControl.mk0 with state := .NETWORK_ERROR } 6000
    EthLinkStatus.LinkON (by decide)
  simpa using h

/-- Claim C4: `begin()` returns failure with state `NETWORK_ERROR` exactly when
the reset fails (no bound expander), DHCP acquisition fails, or the acquired
local IP is all-zero; in every other case it returns `true` with state
`NETWORK_CONNECTED`. -/
theorem C4_begin_outcome (s : EthernetControl) (mac : List Nat)
    (useStaticIP : Bool) (dhcpResult : Nat) (localIP : IPv4) :
    (((s.begin mac useStaticIP dhcpResult localIP).1 = false ∧
        (s.begin mac useStaticIP dhcpResult localIP).2.state =
          NetworkState.NETWORK_ERROR) ↔
      (¬(s.mcpInitialized = true ∧ s.mcpBound = true) ∨
        (useStaticIP = false ∧ dhcpResult = 0) ∨ localIP = ⟨0, 0, 0, 0⟩)) ∧
    (¬(¬(s.mcpInitialized = true ∧ s.mcpBound = true) ∨
        (useStaticIP = false ∧ dhcpResult = 0) ∨ localIP = ⟨0, 0, 0, 0⟩) →
      ((s.begin mac useStaticIP dhcpResult localIP).1 = true ∧
        (s.begin mac useStaticIP dhcpResult localIP).2.state =
          NetworkState.NETWORK_CONNECTED)) := by
  cases hmi : s.mcpInitialized <;> cases hmb : s.mcpBound <;>
    cases useStaticIP <;>
    by_cases hd : dhcpResult = 0 <;>
    by_cases hip : localIP = (⟨0, 0, 0, 0⟩ : IPv4) <;>
    simp [EthernetControl.begin, EthernetControl.reset, hmi, hmb, hd, hip]

/-- Witness for `C4_begin_outcome`: with the expander bound, a successful
DHCP acquisition of 192.168.1.2 yields `true` and `NETWORK_CONNECTED`, and a
DHCP failure yields `false` and `NETWORK_ERROR`. -/
theorem C4_begin_outcome_witness :
    ((EthernetControl.mk0.initMCP.2.2.begin [1, 2, 3, 4, 5, 6] false 1
        ⟨192, 168, 1, 2⟩).1 = true ∧
      (EthernetControl.mk0.initMCP.2.2.begin [1, 2, 3, 4, 5, 6] false 1
        ⟨192, 168, 1, 2⟩).2.state = NetworkState.NETWORK_CONNECTED) ∧
    ((EthernetControl.mk0.initMCP.2.2.begin [1, 2, 3, 4, 5, 6] false 0
        ⟨0, 0, 0, 0⟩).1 = false ∧
      (EthernetControl.mk0.initMCP.2.2.begin [1, 2, 3, 4, 5, 6] false 0
        ⟨0, 0, 0, 0⟩).2.state = NetworkState.NETWORK_ERROR) :=
  ⟨(C4_begin_outcome EthernetControl.mk0.initMCP.2.2 [1, 2, 3, 4, 5, 6] false 1
      ⟨192, 168, 1, 2⟩).2 (by decide),
    (C4_begin_outcome EthernetControl.mk0.initMCP.2.2 [1, 2, 3, 4, 5, 6] false 0
      ⟨0, 0, 0, 0⟩).1.mpr (by decide)⟩

/-- Claim C7: a `reset()` call made before a reset line has been bound via
`initMCP` (expander handle null or not initialized) returns failure, emits
zero pin writes, and leaves the object state unchanged. -/
theorem C7_reset_unbound (s : EthernetControl)
    (h : s.mcpInitialized = false ∨ s.mcpBound = false) :
    s.reset = (false, [], s) := by
  rcases h with h | h <;> simp [EthernetControl.reset, h]

/-- Witness for `C7_reset_unbound` at the freshly constructed object (no
`initMCP` yet). -/
theorem C7_reset_unbound_witness :
    EthernetControl.mk0.reset = (false, [], EthernetControl.mk0) :=
  C7_reset_unbound EthernetControl.mk0 (Or.inl (by decide))

/-! ## ModbusComm (src/ModbusComm.h / .cpp) -/

/-- Library call `mb.addHreg` / `mb.addIreg` / `mb.addCoil` / `mb.addIsts`
adding one entry to a per-kind register map.  Modelled from the spec: the
modbus-esp8266 `ModbusRTU` library is not among the sources; per the spec,
registering an address that collides with an already-registered entry is an
error and the call fails, otherwise the entry is committed. -/
def Modbus.addReg (regs : List Nat) (addr : Nat) : Bool × List Nat :=
  if addr ∈ regs then (false, regs) else (true, regs ++ [addr])

/-- Registration loop shared by the four `ModbusComm::add...Handler` methods:
`result = false; for (i = 0; i < num; i++) { result = addReg(addr + i); if
(!result) break; }` — one entry at a time, stopping at the first failure,
with no rollback of already-committed entries. -/
def addRegRange (regs : List Nat) (addr : Nat) : Nat → Bool × List Nat
  | 0 => (false, regs)
  | n + 1 =>
    let r := Modbus.addReg regs addr
    if r.1 = false then (false, r.2)
    else if n = 0 then r
    else addRegRange r.2 (addr + 1) n

/-- State of a `ModbusComm` object.  The per-kind register maps and the
library-side server slave ID stand in for the `ModbusRTU mb` member; handler
lists record the `(regAddr, numRegs)` ranges whose callbacks were attached.
Modelled from the spec regarding the library role: role escalation is
one-directional, Master operations remain always available, so `mb.master()`
does not revoke a previously enabled server slave ID. -/
structure ModbusComm where
  baudRate : Nat
  mbServerEnabled : Bool
  serverId : Option Nat
  hregs : List Nat
  iregs : List Nat
  coils : List Nat
  ists : List Nat
  hregHandlers : List (Nat × Nat)
  iregHandlers : List (Nat × Nat)
  coilHandlers : List (Nat × Nat)
  istsHandlers : List (Nat × Nat)
deriving DecidableEq, Repr

/-- Constructor `ModbusComm::ModbusComm()`: baud 9600, server role disabled. -/
def ModbusComm.mk0 : ModbusComm :=
  { baudRate := 9600
    mbServerEnabled := false
    serverId := none
    hregs := []
    iregs := []
    coils := []
    ists := []
    hregHandlers := []
    iregHandlers := []
    coilHandlers := []
    istsHandlers := [] }

/-- Method `ModbusComm::begin`: stores the baud rate, configures the serial
port and selects master mode; always returns `true`. -/
def ModbusComm.begin (s : ModbusComm) (baud : Nat) : Bool × ModbusComm :=
  (true, { s with baudRate := baud })

/-- Method `ModbusComm::readRegisters`: issues `mb.readHreg` into the caller's
buffer, pumps `mb.task()` for the fixed 1000 ms window, and returns `true`
unconditionally.  The environment supplies the response (`none` = no valid
response within the window); modelled from the spec, a timeout leaves the
caller-visible buffer unchanged. -/
def ModbusComm.readRegisters (s : ModbusComm) (slaveAddr regAddr numRegs : Nat)
    (data : List Nat) (response : Option (List Nat)) :
    Bool × List Nat × ModbusComm :=
  let data1 := match response with
    | some vals => vals
    | none => data
  (true, data1, s)

/-- Method `ModbusComm::writeRegister`: issues `mb.writeHreg`, pumps the
1000 ms window, and returns `true` unconditionally whether or not a response
(`none` = timeout) arrived. -/
def ModbusComm.writeRegister (s : ModbusComm) (slaveAddr regAddr value : Nat)
    (response : Option Unit) : Bool × ModbusComm :=
  (true, s)

/-- Method `ModbusComm::writeMultipleRegisters`: issues the multi-register
`mb.writeHreg`, pumps the 1000 ms window, and returns `true` unconditionally
whether or not a response (`none` = timeout) arrived. -/
def ModbusComm.writeMultipleRegisters (s : ModbusComm)
    (slaveAddr regAddr : Nat) (data : List Nat) (response : Option Unit) :
    Bool × ModbusComm :=
  (true, s)

/-- Method `ModbusComm::task`: one non-blocking pump of `mb.task()`; no
wrapper-visible state change. -/
def ModbusComm.task (s : ModbusComm) : ModbusComm := s

/-- Server-mode escalation block repeated at the head of each
`ModbusComm::add...Handler` method: on the first registration call,
`mb.server(1)` is invoked and `mbServerEnabled` is set. -/
def ModbusComm.ensureServer (s : ModbusComm) : ModbusComm :=
  if !s.mbServerEnabled then
    { s with serverId := some 1, mbServerEnabled := true }
  else s

/-- Method `ModbusComm::addHoldingRegisterHandler`: escalates to server mode,
adds the range one register at a time (stopping at the first collision), and
attaches the get/set callbacks only if every add succeeded. -/
def ModbusComm.addHoldingRegisterHandler (s : ModbusComm)
    (regAddr numRegs : Nat) : Bool × ModbusComm :=
  let s1 := s.ensureServer
  let r := addRegRange s1.hregs regAddr numRegs
  if r.1 then
    (true,
      { s1 with
          hregs := r.2
          hregHandlers := s1.hregHandlers ++ [(regAddr, numRegs)] })
  else
    (false, { s1 with hregs := r.2 })

/-- Method `ModbusComm::addInputRegisterHandler` (get callback only). -/
def ModbusComm.addInputRegisterHandler (s : ModbusComm)
    (regAddr numRegs : Nat) : Bool × ModbusComm :=
  let s1 := s.ensureServer
  let r := addRegRange s1.iregs regAddr numRegs
  if r.1 then
    (true,
      { s1 with
          iregs := r.2
          iregHandlers := s1.iregHandlers ++ [(regAddr, numRegs)] })
  else
    (false, { s1 with iregs := r.2 })

/-- Method `ModbusComm::addCoilHandler` (get and set callbacks). -/
def ModbusComm.addCoilHandler (s : ModbusComm)
    (regAddr numCoils : Nat) : Bool × ModbusComm :=
  let s1 := s.ensureServer
  let r := addRegRange s1.coils regAddr numCoils
  if r.1 then
    (true,
      { s1 with
          coils := r.2
          coilHandlers := s1.coilHandlers ++ [(regAddr, numCoils)] })
  else
    (false, { s1 with coils := r.2 })

/-- Method `ModbusComm::addDiscreteInputHandler` (get callback only). -/
def ModbusComm.addDiscreteInputHandler (s : ModbusComm)
    (regAddr numInputs : Nat) : Bool × ModbusComm :=
  let s1 := s.ensureServer
  let r := addRegRange s1.ists regAddr numInputs
  if r.1 then
    (true,
      { s1 with
          ists := r.2
          istsHandlers := s1.istsHandlers ++ [(regAddr, numInputs)] })
  else
    (false, { s1 with ists := r.2 })

/-- Public operations of `ModbusComm`, for quantifying over call sequences. -/
inductive MbOp where
  | beginOp (baud : Nat)
  | readRegs (slave reg num : Nat) (data : List Nat) (resp : Option (List Nat))
  | writeReg (slave reg val : Nat) (resp : Option Unit)
  | writeRegs (slave reg : Nat) (vals : List Nat) (resp : Option Unit)
  | taskOp
  | addHolding (reg num : Nat)
  | addInput (reg num : Nat)
  | addCoil (reg num : Nat)
  | addDiscrete (reg num : Nat)
deriving DecidableEq, Repr

/-- Effect of one public `ModbusComm` operation on the object state. -/
def ModbusComm.applyOp (s : ModbusComm) : MbOp → ModbusComm
  | .beginOp baud => (s.begin baud).2
  | .readRegs a b c d r => (s.readRegisters a b c d r).2.2
  | .writeReg a b v r => (s.writeRegister a b v r).2
  | .writeRegs a b d r => (s.writeMultipleRegisters a b d r).2
  | .taskOp => s.task
  | .addHolding a n => (s.addHoldingRegisterHandler a n).2
  | .addInput a n => (s.addInputRegisterHandler a n).2
  | .addCoil a n => (s.addCoilHandler a n).2
  | .addDiscrete a n => (s.addDiscreteInputHandler a n).2

/-- Effect of a sequence of public `ModbusComm` operations. -/
def ModbusComm.applyOps (s : ModbusComm) : List MbOp → ModbusComm
  | [] => s
  | op :: ops => (s.applyOp op).applyOps ops

@[simp]
theorem ModbusComm.ensureServer_hregs (s : ModbusComm) :
    s.ensureServer.hregs = s.hregs := by
  unfold ModbusComm.ensureServer; split <;> rfl

@[simp]
theorem ModbusComm.ensureServer_coils (s : ModbusComm) :
    s.ensureServer.coils = s.coils := by
  unfold ModbusComm.ensureServer; split <;> rfl

@[simp]
theorem ModbusComm.ensureServer_hregHandlers (s : ModbusComm) :
    s.ensureServer.hregHandlers = s.hregHandlers := by
  unfold ModbusComm.ensureServer; split <;> rfl

@[simp]
theorem ModbusComm.ensureServer_coilHandlers (s : ModbusComm) :
    s.ensureServer.coilHandlers = s.coilHandlers := by
  unfold ModbusComm.ensureServer; split <;> rfl

/-- Behaviour of the registration loop on a colliding range: the loop reports
failure, but every address of the range strictly below the first colliding
offset has already been committed and is not rolled back. -/
theorem addRegRange_collision :
    ∀ (num : Nat) (regs : List Nat) (addr : Nat),
      (∃ i, i < num ∧ addr + i ∈ regs) →
      (addRegRange regs addr num).1 = false ∧
      ∃ k, k < num ∧ addr + k ∈ regs ∧ (∀ j, j < k → addr + j ∉ regs) ∧
        (addRegRange regs addr num).2 = regs ++ List.range' addr k := by
  intro num
  induction num with
  | zero =>
    rintro regs addr ⟨i, hi, -⟩
    omega
  | succ n ih =>
    rintro regs addr ⟨i, hi, hmem⟩
    by_cases h : addr ∈ regs
    · refine ⟨?_, 0, ?_, ?_, ?_, ?_⟩ <;>
        simp [addRegRange, Modbus.addReg, h]
    · have hi0 : i ≠ 0 := by
        intro h0
        subst h0
        simp at hmem
        exact h hmem
      cases n with
      | zero => omega
      | succ m =>
        have hmem' : addr + 1 + (i - 1) ∈ regs ++ [addr] := by
          have : addr + 1 + (i - 1) = addr + i := by omega
          rw [this]
          exact List.mem_append_left _ hmem
        obtain ⟨hfail, k', hk', hmemk', hnone, heq⟩ :=
          ih (regs ++ [addr]) (addr + 1) ⟨i - 1, by omega, hmem'⟩
        have hred :
            addRegRange regs addr (m + 1 + 1) =
              addRegRange (regs ++ [addr]) (addr + 1) (m + 1) := by
          simp [addRegRange, Modbus.addReg, h]
        refine ⟨by rw [hred]; exact hfail, k' + 1, by omega, ?_, ?_, ?_⟩
        · rcases List.mem_append.mp hmemk' with hin | hin
          · have : addr + (k' + 1) = addr + 1 + k' := by omega
            rw [this]
            exact hin
          · simp at hin
            omega
        · intro j hj
          cases j with
          | zero => simpa using h
          | succ j' =>
            have hn := hnone j' (by omega)
            have : addr + (j' + 1) = addr + 1 + j' := by omega
            rw [this]
            intro hcontra
            exact hn (List.mem_append_left _ hcontra)
        · rw [hred, heq, List.range'_succ]
          simp

/-- Claim C3, counterexample: with holding register 2 already registered, a
request to register the range [0, 4) fails but commits registers 0 and 1 — the
register map is not as it was before the call, so registration is not
all-or-nothing. -/
theorem C3_registration_counterexample :
    ((ModbusComm.mk0.addHoldingRegisterHandler 2 1).1 = true) ∧
    ((ModbusComm.mk0.addHoldingRegisterHandler 2 1).2.hregs = [2]) ∧
    (((ModbusComm.mk0.addHoldingRegisterHandler 2 1).2.addHoldingRegisterHandler
        0 4).1 = false) ∧
    (((ModbusComm.mk0.addHoldingRegisterHandler 2 1).2.addHoldingRegisterHandler
        0 4).2.hregs = [2, 0, 1]) ∧
    (((ModbusComm.mk0.addHoldingRegisterHandler 2 1).2.addHoldingRegisterHandler
        0 4).2.hregs ≠ [2]) := by
  decide

/-- Claim C3, amended: a registration call whose range collides with an
existing entry returns failure and attaches no callback, but the addresses of
the range strictly below the first colliding offset are newly committed to the
register map and are not rolled back (registration is not atomic); stated for
`addHoldingRegisterHandler` and `addCoilHandler`. -/
theorem C3_registration_collision_commits :
    (∀ (s : ModbusComm) (regAddr numRegs : Nat),
      (∃ i, i < numRegs ∧ regAddr + i ∈ s.hregs) →
      (s.addHoldingRegisterHandler regAddr numRegs).1 = false ∧
      (s.addHoldingRegisterHandler regAddr numRegs).2.hregHandlers =
        s.hregHandlers ∧
      ∃ k, k < numRegs ∧ regAddr + k ∈ s.hregs ∧
        (∀ j, j < k → regAddr + j ∉ s.hregs) ∧
        (s.addHoldingRegisterHandler regAddr numRegs).2.hregs =
          s.hregs ++ List.range' regAddr k) ∧
    (∀ (s : ModbusComm) (regAddr numCoils : Nat),
      (∃ i, i < numCoils ∧ regAddr + i ∈ s.coils) →
      (s.addCoilHandler regAddr numCoils).1 = false ∧
      (s.addCoilHandler regAddr numCoils).2.coilHandlers = s.coilHandlers ∧
      ∃ k, k < numCoils ∧ regAddr + k ∈ s.coils ∧
        (∀ j, j < k → regAddr + j ∉ s.coils) ∧
        (s.addCoilHandler regAddr numCoils).2.coils =
          s.coils ++ List.range' regAddr k) := by
  constructor
  · intro s regAddr numRegs hcol
    obtain ⟨hfail, k, hk, hmemk, hnone, heq⟩ :=
      addRegRange_collision numRegs s.hregs regAddr hcol
    refine ⟨?_, ?_, k, hk, hmemk, hnone, ?_⟩ <;>
      simp [ModbusComm.addHoldingRegisterHandler, hfail, heq]
  · intro s regAddr numCoils hcol
    obtain ⟨hfail, k, hk, hmemk, hnone, heq⟩ :=
      addRegRange_collision numCoils s.coils regAddr hcol
    refine ⟨?_, ?_, k, hk, hmemk, hnone, ?_⟩ <;>
      simp [ModbusComm.addCoilHandler, hfail, heq]

/-- Witness for `C3_registration_collision_commits`: holding register 2 is
registered, then the range [0, 4) collides at offset 2 after committing 0, 1;
likewise coil 0 makes the range [0, 1) collide immediately. -/
theorem C3_registration_collision_commits_witness :
    (((ModbusComm.mk0.addHoldingRegisterHandler 2 1).2.addHoldingRegisterHandler
        0 4).1 = false ∧
      ((ModbusComm.mk0.addHoldingRegisterHandler 2 1).2.addHoldingRegisterHandler
        0 4).2.hregHandlers =
        (ModbusComm.mk0.addHoldingRegisterHandler 2 1).2.hregHandlers ∧
      ∃ k, k < 4 ∧
        0 + k ∈ (ModbusComm.mk0.addHoldingRegisterHandler 2 1).2.hregs ∧
        (∀ j, j < k →
          0 + j ∉ (ModbusComm.mk0.addHoldingRegisterHandler 2 1).2.hregs) ∧
        ((ModbusComm.mk0.addHoldingRegisterHandler 2 1).2.addHoldingRegisterHandler
          0 4).2.hregs =
          (ModbusComm.mk0.addHoldingRegisterHandler 2 1).2.hregs ++
            List.range' 0 k) ∧
    (((ModbusComm.mk0.addCoilHandler 0 1).2.addCoilHandler 0 1).1 = false ∧
      ((ModbusComm.mk0.addCoilHandler 0 1).2.addCoilHandler 0 1).2.coilHandlers =
        (ModbusComm.mk0.addCoilHandler 0 1).2.coilHandlers ∧
      ∃ k, k < 1 ∧
        0 + k ∈ (ModbusComm.mk0.addCoilHandler 0 1).2.coils ∧
        (∀ j, j < k →
          0 + j ∉ (ModbusComm.mk0.addCoilHandler 0 1).2.coils) ∧
        ((ModbusComm.mk0.addCoilHandler 0 1).2.addCoilHandler 0 1).2.coils =
          (ModbusComm.mk0.addCoilHandler 0 1).2.coils ++ List.range' 0 k) :=
  ⟨C3_registration_collision_commits.1
      (ModbusComm.mk0.addHoldingRegisterHandler 2 1).2 0 4
      ⟨2, by decide, by decide⟩,
    C3_registration_collision_commits.2
      (ModbusComm.mk0.addCoilHandler 0 1).2 0 1
      ⟨0, by decide, by decide⟩⟩

/-- Claim C2, counterexample: a `readRegisters` call that receives no valid
response within the 1000 ms window (`response = none`) still returns `true`
(the source returns `true` unconditionally), not a failure outcome — though
the caller-visible buffer is indeed left unchanged. -/
theorem C2_timeout_counterexample :
    ((ModbusComm.mk0.readRegisters 1 0 2 [7, 7] none).1 = true) ∧
    ((ModbusComm.mk0.readRegisters 1 0 2 [7, 7] none).2.1 = [7, 7]) := by
  decide

/-- Claim C2, amended: `readRegisters`, `writeRegister` and
`writeMultipleRegisters` return `true` unconditionally, even when no valid
response arrives within the 1000 ms window; on such a timeout `readRegisters`
leaves the caller-visible register buffer (and the object) unchanged. -/
theorem C2_timeout_returns_true :
    (∀ (s : ModbusComm) (a b n : Nat) (data : List Nat),
      s.readRegisters a b n data none = (true, data, s)) ∧
    (∀ (s : ModbusComm) (a b v : Nat) (r : Option Unit),
      (s.writeRegister a b v r).1 = true) ∧
    (∀ (s : ModbusComm) (a b : Nat) (d : List Nat) (r : Option Unit),
      (s.writeMultipleRegisters a b d r).1 = true) :=
  ⟨fun _ _ _ _ _ => rfl, fun _ _ _ _ _ => rfl, fun _ _ _ _ _ => rfl⟩

/-- Helper: no single `ModbusComm` operation clears `mbServerEnabled`. -/
theorem ModbusComm.applyOp_server_mono (s : ModbusComm) (op : MbOp)
    (h : s.mbServerEnabled = true) : (s.applyOp op).mbServerEnabled = true := by
  cases op <;>
    simp [ModbusComm.applyOp, ModbusComm.begin, ModbusComm.readRegisters,
      ModbusComm.writeRegister, ModbusComm.writeMultipleRegisters,
      ModbusComm.task, ModbusComm.addHoldingRegisterHandler,
      ModbusComm.addInputRegisterHandler, ModbusComm.addCoilHandler,
      ModbusComm.addDiscreteInputHandler, ModbusComm.ensureServer, h] <;>
    split <;> simp [h]

/-- Helper: every `ModbusComm` operation preserves the invariant that an
enabled server role carries slave ID 1. -/
theorem ModbusComm.applyOp_server_id (s : ModbusComm) (op : MbOp)
    (h : s.mbServerEnabled = true → s.serverId = some 1) :
    (s.applyOp op).mbServerEnabled = true → (s.applyOp op).serverId = some 1 := by
  cases op <;>
    by_cases hf : s.mbServerEnabled = true <;>
    simp [ModbusComm.applyOp, ModbusComm.begin, ModbusComm.readRegisters,
      ModbusComm.writeRegister, ModbusComm.writeMultipleRegisters,
      ModbusComm.task, ModbusComm.addHoldingRegisterHandler,
      ModbusComm.addInputRegisterHandler, ModbusComm.addCoilHandler,
      ModbusComm.addDiscreteInputHandler, ModbusComm.ensureServer, hf] <;>
    first
      | exact h hf
      | exact fun _ => h hf
      | (split <;> simp [h hf])
      | (split <;> simp)

/-- Claim C6: once a registration operation has enabled the Server role, no
sequence of `ModbusComm` operations ever disables it; every server-enabled
state reachable from the constructor carries slave ID 1; and the master
operations succeed in every state, server-enabled or not. -/
theorem C6_server_role_one_directional :
    (∀ (s : ModbusComm) (ops : List MbOp), s.mbServerEnabled = true →
      (s.applyOps ops).mbServerEnabled = true) ∧
    (∀ ops : List MbOp, (ModbusComm.mk0.applyOps ops).mbServerEnabled = true →
      (ModbusComm.mk0.applyOps ops).serverId = some 1) ∧
    (∀ (s : ModbusComm) (a b c : Nat) (d : List Nat) (r : Option (List Nat)),
      (s.readRegisters a b c d r).1 = true) ∧
    (∀ (s : ModbusComm) (a b v : Nat) (r : Option Unit),
      (s.writeRegister a b v r).1 = true) ∧
    (∀ (s : ModbusComm) (a b : Nat) (d : List Nat) (r : Option Unit),
      (s.writeMultipleRegisters a b d r).1 = true) := by
  refine ⟨?_, ?_, fun _ _ _ _ _ _ => rfl, fun _ _ _ _ _ => rfl,
    fun _ _ _ _ _ => rfl⟩
  · intro s ops
    induction ops generalizing s with
    | nil => exact fun h => h
    | cons op ops ih =>
      intro h
      exact ih _ (ModbusComm.applyOp_server_mono s op h)
  · have key : ∀ (ops : List MbOp) (s : ModbusComm),
        (s.mbServerEnabled = true → s.serverId = some 1) →
        ((s.applyOps ops).mbServerEnabled = true →
          (s.applyOps ops).serverId = some 1) := by
      intro ops
      induction ops with
      | nil => exact fun s h => h
      | cons op ops ih =>
        intro s h
        exact ih _ (ModbusComm.applyOp_server_id s op h)
    intro ops
    exact key ops ModbusComm.mk0 (by intro h; simp [ModbusComm.mk0] at h)

/-- Witness for `C6_server_role_one_directional`: after one coil registration,
the server flag survives a later `begin()` and `task()`, and the reachable
server-enabled state carries slave ID 1. -/
theorem C6_server_role_one_directional_witness :
    (((ModbusComm.mk0.applyOp (MbOp.addCoil 0 1)).applyOps
        [MbOp.beginOp 19200, MbOp.taskOp]).mbServerEnabled = true) ∧
    ((ModbusComm.mk0.applyOps
        [MbOp.addCoil 0 1, MbOp.beginOp 19200]).serverId = some 1) :=
  ⟨C6_server_role_one_directional.1 (ModbusComm.mk0.applyOp (MbOp.addCoil 0 1))
      [MbOp.beginOp 19200, MbOp.taskOp] (by decide),
    C6_server_role_one_directional.2.1 [MbOp.addCoil 0 1, MbOp.beginOp 19200]
      (by decide)⟩

/-! ## PollInterval discipline (spec section 4.4; the gating pattern of
`DHTSensors::update` and `EthernetControl::task`) -/

/-- Per-subsystem `{lastRunTimestamp, periodMs}` pair of the cross-cutting
poll-interval discipline. -/
structure PollInterval where
  lastRun : Nat
  periodMs : Nat
deriving DecidableEq, Repr

/-- One control-loop visit of a gated subsystem: the pattern
`if (now - lastRun >= periodMs) { lastRun = now; <work>; }` shared by
`DHTSensors::update` and `EthernetControl::task`.  Returns whether the gated
work ran, and the updated pair. -/
def PollInterval.step (p : PollInterval) (now : Nat) : Bool × PollInterval :=
  if p.periodMs ≤ usub32 now p.lastRun then (true, { p with lastRun := now })
  else (false, p)

/-- Drive a gated subsystem over a list of control-loop tick times, collecting
the tick times at which the gated work executed. -/
def pollRun (p : PollInterval) : List Nat → List Nat
  | [] => []
  | t :: ts =>
    let r := p.step t
    if r.1 then t :: pollRun r.2 ts else pollRun r.2 ts

/-- Check that a tick-time list is monotone starting from `x`, with every tick
in unsigned 32-bit range. -/
def monoBelow (x : Nat) : List Nat → Bool
  | [] => true
  | t :: ts => decide (x ≤ t) && decide (t < 2 ^ 32) && monoBelow t ts

/-- Check that consecutive elements of a list are at least `d` apart. -/
def spacedBy (d : Nat) : List Nat → Bool
  | a :: b :: l => decide (a + d ≤ b) && spacedBy d (b :: l)
  | _ => true

theorem monoBelow_anti (x y : Nat) (ts : List Nat) (hxy : x ≤ y)
    (h : monoBelow y ts = true) : monoBelow x ts = true := by
  cases ts with
  | nil => rfl
  | cons t ts =>
    simp only [monoBelow, Bool.and_eq_true, decide_eq_true_eq] at h ⊢
    exact ⟨⟨le_trans hxy h.1.1, h.1.2⟩, h.2⟩

/-- Core rate-limiter property of the poll-interval discipline: over any
monotone in-range tick sequence, consecutive executions of the gated work are
at least one period apart, and every execution is at least one period after
the initial `lastRun` stamp. -/
theorem pollRun_spaced :
    ∀ (ts : List Nat) (p : PollInterval), p.lastRun < 2 ^ 32 →
      monoBelow p.lastRun ts = true →
      spacedBy p.periodMs (pollRun p ts) = true ∧
      ∀ t ∈ pollRun p ts, p.lastRun + p.periodMs ≤ t := by
  intro ts
  induction ts with
  | nil =>
    intro p _ _
    exact ⟨rfl, by simp [pollRun]⟩
  | cons t ts ih =>
    intro p hlt hmono
    simp only [monoBelow, Bool.and_eq_true, decide_eq_true_eq] at hmono
    obtain ⟨⟨hle, ht⟩, hm⟩ := hmono
    have husub : usub32 t p.lastRun = t - p.lastRun :=
      usub32_of_le t p.lastRun hle ht
    by_cases hfire : p.periodMs ≤ usub32 t p.lastRun
    · have hrun : pollRun p (t :: ts) =
          t :: pollRun { p with lastRun := t } ts := by
        simp [pollRun, PollInterval.step, hfire]
      obtain ⟨hs, hmem⟩ := ih { p with lastRun := t } ht hm
      have hfirst : p.lastRun + p.periodMs ≤ t := by omega
      constructor
      · rw [hrun]
        cases hrest : pollRun { p with lastRun := t } ts with
        | nil => rfl
        | cons u us =>
          have hu : t + p.periodMs ≤ u := by
            have := hmem u (by rw [hrest]; exact List.mem_cons_self u us)
            simpa using this
          rw [hrest] at hs
          simp only [spacedBy, Bool.and_eq_true, decide_eq_true_eq]
          exact ⟨hu, hs⟩
      · intro x hx
        rw [hrun] at hx
        rcases List.mem_cons.mp hx with hx | hx
        · omega
        · have := hmem x hx
          simp at this
          omega
    · have hrun : pollRun p (t :: ts) = pollRun p ts := by
        simp [pollRun, PollInterval.step, hfire]
      rw [hrun]
      exact ih p hlt (monoBelow_anti p.lastRun t ts hle hm)

/-- Claim C5: the poll-interval discipline skips (never queues) early
re-entries — both in the generic pattern and in `EthernetControl::task` —
executes the gated work at most once per period over any monotone tick
sequence, and on the concrete scenario (periods 1000 ms and 2000 ms, a loop
ticking every 10 ms from 0 through 2000 ms) executes exactly 2 and exactly 1
times, at the boundary ticks. -/
theorem C5_poll_interval_discipline :
    (∀ (p : PollInterval) (now : Nat), usub32 now p.lastRun < p.periodMs →
      p.step now = (false, p)) ∧
    (∀ (s : EthernetControl) (now : Nat) (link : EthLinkStatus),
      usub32 now s.lastCheckTime < CHECK_INTERVAL → s.task now link = s) ∧
    (∀ (p : PollInterval) (ts : List Nat), p.lastRun < 2 ^ 32 →
      monoBelow p.lastRun ts = true →
      spacedBy p.periodMs (pollRun p ts) = true) ∧
    (pollRun ⟨0, 1000⟩ ((List.range 201).map (fun k => k * 10)) =
      [1000, 2000]) ∧
    ((pollRun ⟨0, 1000⟩ ((List.range 201).map (fun k => k * 10))).length = 2) ∧
    (pollRun ⟨0, 2000⟩ ((List.range 201).map (fun k => k * 10)) = [2000]) ∧
    ((pollRun ⟨0, 2000⟩ ((List.range 201).map (fun k => k * 10))).length =
      1) := by
  refine ⟨?_, ?_, ?_, by decide, by decide, by decide, by decide⟩
  · intro p now h
    unfold PollInterval.step
    rw [if_neg (by omega)]
  · intro s now link h
    unfold EthernetControl.task
    rw [if_neg (by omega)]
  · intro p ts h1 h2
    exact (pollRun_spaced ts p h1 h2).1

/-- Witness for `C5_poll_interval_discipline`: an early re-entry at tick 3 of
a 5 ms subsystem is skipped; an Error-state link check at tick 10 is skipped;
ticks `[1, 2, 3]` of a 3 ms subsystem yield a spaced run. -/
theorem C5_poll_interval_discipline_witness :
    ((⟨0, 5⟩ : PollInterval).step 3 = (false, ⟨0, 5⟩)) ∧
    (EthernetControl.mk0.task 10 EthLinkStatus.LinkON = EthernetControl.mk0) ∧
    (spacedBy 3 (pollRun ⟨0, 3⟩ [1, 2, 3]) = true) :=
  ⟨C5_poll_interval_discipline.1 ⟨0, 5⟩ 3 (by decide),
    C5_poll_interval_discipline.2.1 EthernetControl.mk0 10 EthLinkStatus.LinkON
      (by decide),
    C5_poll_interval_discipline.2.2.1 ⟨0, 3⟩ [1, 2, 3] (by decide) (by decide)⟩

/-! ## RelayOutputs (src/RelayOutputs.h / .cpp) -/

/-- Number of relay outputs.  Modelled from the spec: the value lives in
`Config.h`, which is not among the sources; the source comment fixes six
relays on GPA0–GPA5. -/
def NUM_RELAY_OUTPUTS : Nat := 6

/-- State of a `RelayOutputs` object: the `uint8_t relayStates` bit mask of
tracked relay states. -/
structure RelayOutputs where
  relayStates : Nat
deriving DecidableEq, Repr

/-- Constructor `RelayOutputs::RelayOutputs()`. -/
def RelayOutputs.mk0 : RelayOutputs := ⟨0⟩

/-- Method `RelayOutputs::begin`: configures the expander pins and clears the
tracked states. -/
def RelayOutputs.begin (r : RelayOutputs) : Bool × RelayOutputs := (true, ⟨0⟩)

/-- Method `RelayOutputs::setRelay`: rejects out-of-range relay numbers,
otherwise writes the pin and sets or clears the tracked bit
(`relayStates |= 1 << n` / `relayStates &= ~(1 << n)`, stored to `uint8_t`). -/
def RelayOutputs.setRelay (r : RelayOutputs) (relayNum : Nat) (state : Bool) :
    Bool × RelayOutputs :=
  if NUM_RELAY_OUTPUTS ≤ relayNum then (false, r)
  else if state then (true, ⟨(r.relayStates ||| (1 <<< relayNum)) % 256⟩)
  else (true, ⟨(r.relayStates &&& (255 ^^^ (1 <<< relayNum))) % 256⟩)

/-- Method `RelayOutputs::getRelayState`: rejects out-of-range relay numbers,
otherwise tests the tracked bit (`(relayStates & (1 << n)) != 0`). -/
def RelayOutputs.getRelayState (r : RelayOutputs) (relayNum : Nat) : Bool :=
  if NUM_RELAY_OUTPUTS ≤ relayNum then false
  else decide (r.relayStates &&& (1 <<< relayNum) ≠ 0)

/-- Method `RelayOutputs::toggleRelay`: rejects out-of-range relay numbers,
otherwise sets the relay to the negation of its tracked state. -/
def RelayOutputs.toggleRelay (r : RelayOutputs) (relayNum : Nat) :
    Bool × RelayOutputs :=
  if NUM_RELAY_OUTPUTS ≤ relayNum then (false, r)
  else r.setRelay relayNum (!(r.getRelayState relayNum))

/-- Method `RelayOutputs::getAllRelayStates`. -/
def RelayOutputs.getAllRelayStates (r : RelayOutputs) : Nat := r.relayStates

/-- Method `RelayOutputs::setAllRelays`: writes all six pins and stores the
argument masked to the valid relays (`states & ((1 << NUM_RELAY_OUTPUTS) - 1)`). -/
def RelayOutputs.setAllRelays (r : RelayOutputs) (states : Nat) :
    RelayOutputs :=
  ⟨states &&& ((1 <<< NUM_RELAY_OUTPUTS) - 1)⟩

/-- Public mutating operations of `RelayOutputs`, for quantifying over call
sequences. -/
inductive RelayOp where
  | beginOp
  | set (n : Nat) (b : Bool)
  | toggle (n : Nat)
  | setAll (states : Nat)
deriving DecidableEq, Repr

/-- Effect of one public `RelayOutputs` operation on the object state. -/
def RelayOutputs.applyOp (r : RelayOutputs) : RelayOp → RelayOutputs
  | .beginOp => r.begin.2
  | .set n b => (r.setRelay n b).2
  | .toggle n => (r.toggleRelay n).2
  | .setAll states => r.setAllRelays states

/-- Effect of a sequence of public `RelayOutputs` operations. -/
def RelayOutputs.applyOps (r : RelayOutputs) : List RelayOp → RelayOutputs
  | [] => r
  | op :: ops => (r.applyOp op).applyOps ops

theorem RelayOutputs.setRelay_get_aux :
    ∀ v < 256, ∀ n < 6,
      ((RelayOutputs.mk v).setRelay n true).1 = true ∧
      ((RelayOutputs.mk v).setRelay n false).1 = true ∧
      ((RelayOutputs.mk v).setRelay n true).2.getRelayState n = true ∧
      ((RelayOutputs.mk v).setRelay n false).2.getRelayState n = false := by
  decide

theorem RelayOutputs.setRelay_frame_aux :
    ∀ v < 256, ∀ n < 6, ∀ m < 6,
      (m ≠ n → ((RelayOutputs.mk v).setRelay n true).2.getRelayState m =
        (RelayOutputs.mk v).getRelayState m) ∧
      (m ≠ n → ((RelayOutputs.mk v).setRelay n false).2.getRelayState m =
        (RelayOutputs.mk v).getRelayState m) := by
  decide

theorem RelayOutputs.setRelay_bound_aux :
    ∀ v < 64, ∀ n < 6,
      ((RelayOutputs.mk v).setRelay n true).2.relayStates < 64 ∧
      ((RelayOutputs.mk v).setRelay n false).2.relayStates < 64 := by
  decide

/-- Helper: every `RelayOutputs` operation keeps the tracked bit mask below
`2 ^ NUM_RELAY_OUTPUTS`. -/
theorem RelayOutputs.applyOp_bound (r : RelayOutputs) (op : RelayOp)
    (h : r.relayStates < 64) : (r.applyOp op).relayStates < 64 := by
  cases op with
  | beginOp => simpa [RelayOutputs.applyOp, RelayOutputs.begin] using
      (by decide : (0 : Nat) < 64)
  | set n b =>
    by_cases hn : NUM_RELAY_OUTPUTS ≤ n
    · simpa [RelayOutputs.applyOp, RelayOutputs.setRelay, hn] using h
    · have hn6 : n < 6 := by simp [NUM_RELAY_OUTPUTS] at hn; omega
      have hx := RelayOutputs.setRelay_bound_aux r.relayStates h n hn6
      cases b with
      | false => simpa [RelayOutputs.applyOp] using hx.2
      | true => simpa [RelayOutputs.applyOp] using hx.1
  | toggle n =>
    by_cases hn : NUM_RELAY_OUTPUTS ≤ n
    · simpa [RelayOutputs.applyOp, RelayOutputs.toggleRelay, hn] using h
    · have hn6 : n < 6 := by simp [NUM_RELAY_OUTPUTS] at hn; omega
      have hx := RelayOutputs.setRelay_bound_aux r.relayStates h n hn6
      simp only [RelayOutputs.applyOp, RelayOutputs.toggleRelay, hn,
        if_false, ite_false]
      cases hb : !(r.getRelayState n) with
      | false => simpa using hx.2
      | true => simpa using hx.1
  | setAll states =>
    have hle : states &&& ((1 <<< NUM_RELAY_OUTPUTS) - 1) ≤
        (1 <<< NUM_RELAY_OUTPUTS) - 1 := Nat.and_le_right
    have h63 : (1 <<< NUM_RELAY_OUTPUTS) - 1 = 63 := rfl
    simp only [RelayOutputs.applyOp, RelayOutputs.setAllRelays]
    omega

/-- Helper: from the constructor state, every operation sequence keeps the
tracked bit mask below `2 ^ NUM_RELAY_OUTPUTS`. -/
theorem RelayOutputs.applyOps_bound (r : RelayOutputs) (ops : List RelayOp)
    (h : r.relayStates < 64) : (r.applyOps ops).relayStates < 64 := by
  induction ops generalizing r with
  | nil => exact h
  | cons op ops ih => exact ih _ (RelayOutputs.applyOp_bound r op h)

/-- Claim C8: for in-range relay numbers, `setRelay` succeeds, makes
`getRelayState` report the new state and leaves every other relay's tracked
state unchanged; out-of-range relay numbers make `setRelay`, `toggleRelay`
and `getRelayState` return `false` without touching `relayStates`; and after
any operation sequence from the constructor, `getAllRelayStates` has no bits
set at positions `≥ NUM_RELAY_OUTPUTS`. -/
theorem C8_relay_state_tracking :
    (∀ (r : RelayOutputs) (n : Nat) (b : Bool), r.relayStates < 256 →
      n < NUM_RELAY_OUTPUTS →
      (r.setRelay n b).1 = true ∧
      (r.setRelay n b).2.getRelayState n = b ∧
      (∀ m, m ≠ n → (r.setRelay n b).2.getRelayState m =
        r.getRelayState m)) ∧
    (∀ (r : RelayOutputs) (n : Nat) (b : Bool), NUM_RELAY_OUTPUTS ≤ n →
      r.setRelay n b = (false, r) ∧ r.toggleRelay n = (false, r) ∧
      r.getRelayState n = false) ∧
    (∀ (ops : List RelayOp) (k : Nat), NUM_RELAY_OUTPUTS ≤ k →
      (RelayOutputs.mk0.applyOps ops).getAllRelayStates.testBit k = false) := by
  refine ⟨?_, ?_, ?_⟩
  · intro r n b hv hn
    have hn6 : n < 6 := by simpa [NUM_RELAY_OUTPUTS] using hn
    have hget := RelayOutputs.setRelay_get_aux r.relayStates hv n hn6
    refine ⟨?_, ?_, ?_⟩
    · cases b with
      | false => exact hget.2.1
      | true => exact hget.1
    · cases b with
      | false => exact hget.2.2.2
      | true => exact hget.2.2.1
    · intro m hm
      by_cases hm6 : m < 6
      · have hfr := RelayOutputs.setRelay_frame_aux r.relayStates hv n hn6 m hm6
        cases b with
        | false => exact hfr.2 hm
        | true => exact hfr.1 hm
      · have hm' : NUM_RELAY_OUTPUTS ≤ m := by
          simp [NUM_RELAY_OUTPUTS]
          omega
        simp [RelayOutputs.getRelayState, RelayOutputs.setRelay, hm']
  · intro r n b hn
    refine ⟨?_, ?_, ?_⟩ <;>
      simp [RelayOutputs.setRelay, RelayOutputs.toggleRelay,
        RelayOutputs.getRelayState, hn]
  · intro ops k hk
    have hb := RelayOutputs.applyOps_bound RelayOutputs.mk0 ops (by decide)
    have hk6 : 6 ≤ k := by simpa [NUM_RELAY_OUTPUTS] using hk
    have hlt : (RelayOutputs.mk0.applyOps ops).relayStates < 2 ^ k := by
      calc (RelayOutputs.mk0.applyOps ops).relayStates < 64 := hb
        _ = 2 ^ 6 := rfl
        _ ≤ 2 ^ k := Nat.pow_le_pow_right (by omega) hk6
    exact Nat.testBit_lt_two_pow hlt

/-- Witness for `C8_relay_state_tracking` at relay states `0b101`: setting
relay 1 succeeds and is visible, relay 3 is untouched, relay number 9 is
rejected, and after a concrete operation sequence no bit ≥ 6 is set. -/
theorem C8_relay_state_tracking_witness :
    (((⟨5⟩ : RelayOutputs).setRelay 1 true).1 = true) ∧
    (((⟨5⟩ : RelayOutputs).setRelay 1 true).2.getRelayState 1 = true) ∧
    (((⟨5⟩ : RelayOutputs).setRelay 1 true).2.getRelayState 3 =
      (⟨5⟩ : RelayOutputs).getRelayState 3) ∧
    ((⟨5⟩ : RelayOutputs).setRelay 9 false = (false, ⟨5⟩)) ∧
    ((RelayOutputs.mk0.applyOps
        [RelayOp.set 0 true, RelayOp.setAll 255,
          RelayOp.toggle 3]).getAllRelayStates.testBit 7 = false) :=
  ⟨(C8_relay_state_tracking.1 ⟨5⟩ 1 true (by decide) (by decide)).1,
    (C8_relay_state_tracking.1 ⟨5⟩ 1 true (by decide) (by decide)).2.1,
    (C8_relay_state_tracking.1 ⟨5⟩ 1 true (by decide) (by decide)).2.2 3
      (by decide),
    (C8_relay_state_tracking.2.1 ⟨5⟩ 9 false (by decide)).1,
    C8_relay_state_tracking.2.2
      [RelayOp.set 0 true, RelayOp.setAll 255, RelayOp.toggle 3] 7
      (by decide)⟩

/-! ## DigitalInputs (src/DigitalInputs.h / .cpp) -/

/-- Number of digital inputs.  Modelled from the spec: the value lives in
`Config.h`, which is not among the sources; the source reads the expander's
PORTB (8 pins, offset 8) and masks results to 8 bits. -/
def NUM_DIGITAL_INPUTS : Nat := 8

/-- State of a `DigitalInputs` object: the `uint8_t lastInputState` snapshot
of the PORTB value. -/
structure DigitalInputs where
  lastInputState : Nat
deriving DecidableEq, Repr

/-- Constructor `DigitalInputs::DigitalInputs()`. -/
def DigitalInputs.mk0 : DigitalInputs := ⟨0⟩

/-- Method `DigitalInputs::readInput`: out-of-range input numbers return
`false` without touching the expander; otherwise the PORTB pin
`inputNum + 8` is read and negated (inputs are active-low).  The environment
`digitalRead` supplies pin levels; the second component records which
expander pins were actually read. -/
def DigitalInputs.readInput (digitalRead : Nat → Bool) (inputNum : Nat) :
    Bool × List Nat :=
  if NUM_DIGITAL_INPUTS ≤ inputNum then (false, [])
  else (!(digitalRead (inputNum + 8)), [inputNum + 8])

/-- Method `DigitalInputs::readAllInputs`: reads the PORTB value (a
`uint8_t`), stores it in `lastInputState`, and returns `~portValue & 0xFF`. -/
def DigitalInputs.readAllInputs (s : DigitalInputs) (portValue : Nat) :
    Nat × DigitalInputs :=
  ((portValue % 256) ^^^ 255, { lastInputState := portValue % 256 })

theorem DigitalInputs.readAll_aux :
    ∀ p < 256, (p % 256) ^^^ 255 < 256 ∧
      ∀ i < 8, ((p % 256) ^^^ 255).testBit i = !(p.testBit i) := by
  decide

/-- Claim C9: `readInput(n)` for in-range `n` returns the logical negation of
the expander pin level (active-low) reading exactly pin `n + 8`, and returns
`false` with zero hardware reads for out-of-range `n`; `readAllInputs`
returns the bitwise complement of the port value masked to 8 bits. -/
theorem C9_digital_inputs_active_low :
    (∀ (digitalRead : Nat → Bool) (n : Nat), n < NUM_DIGITAL_INPUTS →
      DigitalInputs.readInput digitalRead n =
        (!(digitalRead (n + 8)), [n + 8])) ∧
    (∀ (digitalRead : Nat → Bool) (n : Nat), NUM_DIGITAL_INPUTS ≤ n →
      DigitalInputs.readInput digitalRead n = (false, [])) ∧
    (∀ (s : DigitalInputs) (p : Nat), p < 256 →
      (s.readAllInputs p).1 < 256 ∧
      ∀ i, i < 8 → (s.readAllInputs p).1.testBit i = !(p.testBit i)) ∧
    (∀ (s : DigitalInputs) (p i : Nat), 8 ≤ i →
      (s.readAllInputs p).1.testBit i = false) := by
  refine ⟨?_, ?_, ?_, ?_⟩
  · intro digitalRead n hn
    have hn' : ¬NUM_DIGITAL_INPUTS ≤ n := by omega
    simp [DigitalInputs.readInput, hn']
  · intro digitalRead n hn
    simp [DigitalInputs.readInput, hn]
  · intro s p hp
    have h := DigitalInputs.readAll_aux p hp
    exact ⟨h.1, fun i hi => h.2 i hi⟩
  · intro s p i hi
    have hlt : (p % 256) ^^^ 255 < 2 ^ 8 :=
      Nat.xor_lt_two_pow (by omega) (by omega)
    have hlt' : (s.readAllInputs p).1 < 2 ^ i := by
      calc (s.readAllInputs p).1 = (p % 256) ^^^ 255 := rfl
        _ < 2 ^ 8 := hlt
        _ ≤ 2 ^ i := Nat.pow_le_pow_right (by omega) hi
    exact Nat.testBit_lt_two_pow hlt'

/-- Witness for `C9_digital_inputs_active_low` with all PORTB pins high:
input 2 reads low (active-low negation of a high pin), input 8 is rejected
with zero reads, and the complement of port value `0b10100101` behaves as an
8-bit complement. -/
theorem C9_digital_inputs_active_low_witness :
    (DigitalInputs.readInput (fun _ => true) 2 = (false, [10])) ∧
    (DigitalInputs.readInput (fun _ => true) 8 = (false, [])) ∧
    ((DigitalInputs.mk0.readAllInputs 165).1 < 256) ∧
    ((DigitalInputs.mk0.readAllInputs 165).1.testBit 0 =
      !((165 : Nat).testBit 0)) ∧
    ((DigitalInputs.mk0.readAllInputs 165).1.testBit 9 = false) :=
  ⟨C9_digital_inputs_active_low.1 (fun _ => true) 2 (by decide),
    C9_digital_inputs_active_low.2.1 (fun _ => true) 8 (by decide),
    (C9_digital_inputs_active_low.2.2.1 DigitalInputs.mk0 165 (by decide)).1,
    (C9_digital_inputs_active_low.2.2.1 DigitalInputs.mk0 165 (by decide)).2 0
      (by decide),
    C9_digital_inputs_active_low.2.2.2 DigitalInputs.mk0 165 9 (by decide)⟩

/-! ## DHTSensors (src/DHT_Sensors.h / .cpp), DHT22 part -/

/-- Number of DHT sensors.  Modelled from the spec: the value lives in
`Config.h`, which is not among the sources; the constructor assigns exactly
`sensorPins[0]` and `sensorPins[1]`, fixing two sensors. -/
def NUM_DHT_SENSORS : Nat := 2

/-- DHT read interval of `DHTSensors::update` (header:
`READ_INTERVAL = 2000` ms). -/
def READ_INTERVAL : Nat := 2000

/-- State of a `DHTSensors` object (DHT22 part).  `present i` models
`dhtSensors[i] != nullptr`; readings are rationals standing for the sensor
floats, with `Option` for `NaN` (a failed read). -/
structure DHTSensors where
  present : Nat → Bool
  temperatures : Nat → Rat
  humidities : Nat → Rat
  sensorConnected : Nat → Bool
  lastReadTime : Nat

/-- Method `DHTSensors::update` (DHT22 block): gated once per
`READ_INTERVAL`; per allocated sensor, a non-`NaN` temperature is stored and
marks the sensor connected, a `NaN` temperature only marks it disconnected,
and a non-`NaN` humidity is stored.  The environment `readT`/`readH` supplies
the readings (`none` = `NaN`). -/
def DHTSensors.update (s : DHTSensors) (now : Nat)
    (readT readH : Nat → Option Rat) : DHTSensors :=
  if READ_INTERVAL ≤ usub32 now s.lastReadTime then
    { s with
        lastReadTime := now
        temperatures := fun i =>
          if decide (i < NUM_DHT_SENSORS) && s.present i then
            match readT i with
            | some t => t
            | none => s.temperatures i
          else s.temperatures i
        sensorConnected := fun i =>
          if decide (i < NUM_DHT_SENSORS) && s.present i then
            match readT i with
            | some _ => true
            | none => false
          else s.sensorConnected i
        humidities := fun i =>
          if decide (i < NUM_DHT_SENSORS) && s.present i then
            match readH i with
            | some h => h
            | none => s.humidities i
          else s.humidities i }
  else s

/-- Claim C10: in an `update()` pass that performs readings, for each
allocated sensor `i`: a `NaN` temperature leaves `temperatures[i]` unchanged
and sets `sensorConnected[i]` to `false`; a `NaN` humidity leaves
`humidities[i]` unchanged; a valid temperature is stored and sets
`sensorConnected[i]` to `true`. -/
theorem C10_dht_nan_retains_last (s : DHTSensors) (now : Nat)
    (readT readH : Nat → Option Rat) (i : Nat)
    (hi : i < NUM_DHT_SENSORS) (hp : s.present i = true)
    (hgate : READ_INTERVAL ≤ usub32 now s.lastReadTime) :
    (readT i = none →
      (s.update now readT readH).temperatures i = s.temperatures i ∧
      (s.update now readT readH).sensorConnected i = false) ∧
    (readH i = none →
      (s.update now readT readH).humidities i = s.humidities i) ∧
    (∀ t, readT i = some t →
      (s.update now readT readH).temperatures i = t ∧
      (s.update now readT readH).sensorConnected i = true) := by
  refine ⟨fun hT => ?_, fun hH => ?_, fun t hT => ?_⟩
  · constructor <;> simp [DHTSensors.update, hgate, hi, hp, hT]
  · simp [DHTSensors.update, hgate, hi, hp, hH]
  · constructor <;> simp [DHTSensors.update, hgate, hi, hp, hT]

/-- Concrete `DHTSensors` state for exercising `update`: both sensors
allocated, temperature 21, humidity 50, connection flag as given, last read
at time 0. -/
def dhtScenario (conn : Bool) : DHTSensors :=
  { present := fun _ => true
    temperatures := fun _ => (21 : Rat)
    humidities := fun _ => (50 : Rat)
    sensorConnected := fun _ => conn
    lastReadTime := 0 }

/-- Witness for `C10_dht_nan_retains_last`: with both readings `NaN` at the
first gated pass, sensor 0 keeps temperature 21 and humidity 50 and is marked
disconnected; with a valid temperature 23 instead, it is stored and the
sensor is marked connected. -/
theorem C10_dht_nan_retains_last_witness :
    (((dhtScenario true).update 2000 (fun _ => none)
        (fun _ => none)).temperatures 0 = 21) ∧
    (((dhtScenario true).update 2000 (fun _ => none)
        (fun _ => none)).sensorConnected 0 = false) ∧
    (((dhtScenario true).update 2000 (fun _ => none)
        (fun _ => none)).humidities 0 = 50) ∧
    (((dhtScenario false).update 2000 (fun _ => some 23)
        (fun _ => none)).temperatures 0 = 23) ∧
    (((dhtScenario false).update 2000 (fun _ => some 23)
        (fun _ => none)).sensorConnected 0 = true) :=
  ⟨((C10_dht_nan_retains_last (dhtScenario true) 2000 (fun _ => none)
      (fun _ => none) 0 (by decide) rfl (by decide)).1 rfl).1,
    ((C10_dht_nan_retains_last (dhtScenario true) 2000 (fun _ => none)
      (fun _ => none) 0 (by decide) rfl (by decide)).1 rfl).2,
    (C10_dht_nan_retains_last (dhtScenario true) 2000 (fun _ => none)
      (fun _ => none) 0 (by decide) rfl (by decide)).2.1 rfl,
    ((C10_dht_nan_retains_last (dhtScenario false) 2000 (fun _ => some 23)
      (fun _ => none) 0 (by decide) rfl (by decide)).2.2 23 rfl).1,
    ((C10_dht_nan_retains_last (dhtScenario false) 2000 (fun _ => some 23)
      (fun _ => none) 0 (by decide) rfl (by decide)).2.2 23 rfl).2⟩
